import Mathlib

/-!
Verification development for a lichess bot (`src/main.py`).

We give a shallow embedding of the `BotManager` logic: the challenge
filter (`parse_time_control`, `is_challenge_acceptable`), the move
submitter (`make_move`), the per-game event handlers
(`handle_initial_state`, `handle_game_state`, `reload_game_state`,
`process_game`'s per-event loop body) and one cycle of the poller
(`poll_events`).

Chess itself (the rules of the game) lives in the external
`python-chess` library; we model it by an abstract legality oracle
`legal : Board → Move → Bool`.  A board is the pair of the FEN it was
built from (`chess.Board(fen)`) and the stack of UCI moves pushed since
(`board.move_stack`); `push_uci` appends a move when the oracle allows
it and fails (raises) otherwise, exactly the two outcomes the Python
code distinguishes.  Network and engine outcomes are inputs to the
embedded functions: each function takes the outcome of the calls it
performs and returns the resulting state together with the control-flow
facts (was the engine invoked, was a reload triggered, did an exception
escape).
-/

namespace LichessBot

/-- A move in UCI notation, e.g. "e2e4". -/
abbrev Move := String

/-- `chess.STARTING_FEN` of python-chess: the standard initial position. -/
def STARTING_FEN : String := "rnbqkbnr/pppppppp/8/8/8/8/PPPPPPPP/RNBQKBNR w KQkq - 0 1"

/-- A `chess.Board`: the FEN it was constructed from plus the stack of
moves pushed onto it since construction (`board.move_stack`, as UCI
strings, which is exactly what `handle_game_state` reads back). -/
structure Board where
  fen0 : String
  stack : List Move
deriving DecidableEq, Repr

/-- Splitting a character list at spaces (how FEN fields are read). -/
def splitOnSpace : List Char → List (List Char)
  | [] => [[]]
  | c :: rest =>
    let r := splitOnSpace rest
    if c = ' ' then [] :: r
    else
      match r with
      | [] => [[c]]
      | f :: fs => (c :: f) :: fs

/-- Side to move in the base FEN: the second space-separated FEN field,
"w" for White, "b" for Black (true = White). -/
def fenWhiteToMove (fen : String) : Bool :=
  match (splitOnSpace fen.data).drop 1 with
  | f :: _ => f ≠ ['b']
  | [] => true

/-- `board.turn` (true = White to move): the base position's side to
move, flipped once per pushed move. -/
def Board.turn (b : Board) : Bool :=
  if b.stack.length % 2 = 0 then fenWhiteToMove b.fen0 else !(fenWhiteToMove b.fen0)

/-- Appending one move to the stack (the effect of a successful
`board.push_uci`). -/
def Board.push (b : Board) (m : Move) : Board :=
  { fen0 := b.fen0, stack := b.stack ++ [m] }

/-- `board.push_uci(m)`: succeeds (appending `m`) when the move is legal
on `b`, fails (raises) otherwise.  Legality is the external oracle. -/
def pushUci (legal : Board → Move → Bool) (b : Board) (m : Move) : Option Board :=
  if legal b m then some (b.push m) else none

/-- Result of pushing a list of moves one by one: either all succeeded,
or one was rejected; in the latter case the board keeps the prefix that
was already pushed (the Python loop mutates the board in place). -/
inductive ApplyResult where
  | ok (b : Board)
  | illegal (b : Board)
deriving DecidableEq, Repr

/-- Push a list of moves in order, stopping at the first illegal one. -/
def applyMoves (legal : Board → Move → Bool) (b : Board) : List Move → ApplyResult
  | [] => .ok b
  | m :: rest =>
    match pushUci legal b m with
    | some b2 => applyMoves legal b2 rest
    | none => .illegal b

/-- The per-game entry of `self.games[game_id]`: the local board and the
assigned color (`is_white`). -/
structure GameData where
  board : Board
  is_white : Bool
deriving DecidableEq, Repr

/- ## Challenge filter -/

/-- The `ACCEPTANCE_CRITERIA` dictionary shape. -/
structure Criteria where
  min_rating : Nat
  max_rating : Nat
  time_controls : List (Nat × Nat)
  variants : List String
  rated : Bool
  allow_rematches : Bool
  deny_bots : Bool
deriving DecidableEq, Repr

/-- The concrete `ACCEPTANCE_CRITERIA` of `src/main.py`. -/
def ACCEPTANCE_CRITERIA : Criteria :=
  { min_rating := 1500
    max_rating := 3000
    time_controls := [(60, 0), (180, 0), (180, 2), (300, 0), (300, 5), (600, 0), (600, 10)]
    variants := ["standard"]
    rated := false
    allow_rematches := true
    deny_bots := true }

/-- The `timeControl` sub-dictionary of a challenge; `none` fields are
absent keys (the code reads them with `.get` and defaults). -/
structure TimeControl where
  type : Option String
  limit : Option Nat
  increment : Option Nat
  daysPerTurn : Option Nat
deriving DecidableEq, Repr

/-- The `challenger` sub-dictionary: title, rating and the `rated` key
the code reads from it (`challenger.get('rated', False)`). -/
structure Challenger where
  title : Option String
  rating : Option Nat
  rated : Option Bool
deriving DecidableEq, Repr

/-- A challenge record as received from the server.  `rated` is the
challenge's own requested rated-flag (present on the wire record; the
code under scrutiny never reads it, which is the point of one of the
claims); `variant` is `challenge['variant']['key']` when present. -/
structure Challenge where
  challenger : Challenger
  rematch : Bool
  timeControl : TimeControl
  variant : Option String
  rated : Bool
deriving DecidableEq, Repr

/-- The decline/accept reasons returned by `is_challenge_acceptable`
(the Russian log strings, as an enumeration). -/
inductive Reason where
  | rematchesDisabled
  | rematchFromBot
  | rematchAccepted
  | botDenied
  | unsupportedVariant
  | unsupportedMode
  | unsupportedType
  | ratingOutOfRange
  | badTimeControl
  | accepted
deriving DecidableEq, Repr

/-- `parse_time_control`: unlimited → (0,0); correspondence →
(daysPerTurn·86400, 0) with `daysPerTurn` defaulting to 1; otherwise
(`limit`, `increment`) with both defaulting to 0. -/
def parse_time_control (tc : TimeControl) : Nat × Nat :=
  if tc.type = some "unlimited" then (0, 0)
  else if tc.type = some "correspondence" then ((tc.daysPerTurn.getD 1) * 86400, 0)
  else (tc.limit.getD 0, tc.increment.getD 0)

/-- `is_challenge_acceptable`, line for line: rematches first (bot check
only), then bot, variant, rated-flag (read from the challenger
dictionary), time-control type, rating range (only when the rating key
is present and non-zero — Python truthiness), and finally the
time-control table: accept iff some allowed pair has exactly the parsed
main time and a minimum increment not above the parsed increment. -/
def is_challenge_acceptable (crit : Criteria) (challenge : Challenge) : Bool × Reason :=
  let challenger := challenge.challenger
  if challenge.rematch then
    if !crit.allow_rematches then (false, .rematchesDisabled)
    else if crit.deny_bots && challenger.title = some "BOT" then (false, .rematchFromBot)
    else (true, .rematchAccepted)
  else
    let tc := challenge.timeControl
    if crit.deny_bots && challenger.title = some "BOT" then (false, .botDenied)
    else if !(match challenge.variant with
              | some v => crit.variants.contains v
              | none => false) then (false, .unsupportedVariant)
    else if challenger.rated.getD false ≠ crit.rated then (false, .unsupportedMode)
    else if !(tc.type = some "clock" ∨ tc.type = some "correspondence" ∨
              tc.type = some "unlimited") then (false, .unsupportedType)
    else
      let parsed_tc := parse_time_control tc
      if (match challenger.rating with
          | some r => r ≠ 0 && !(crit.min_rating ≤ r && r ≤ crit.max_rating)
          | none => false) then (false, .ratingOutOfRange)
      else if !(crit.time_controls.any fun p => parsed_tc.1 = p.1 && parsed_tc.2 ≥ p.2) then
        (false, .badTimeControl)
      else (true, .accepted)

/- ## Resync and move submission -/

/-- Outcome of the snapshot fetch inside `reload_game_state`: either the
request/JSON parse raised (`.error`), or it produced a record whose
`fen` field may be absent (`.ok none`). -/
abbrev FetchOutcome := Except Unit (Option String)

/-- `reload_game_state`: fetch the game snapshot and replace the board
with `chess.Board(snapshot.get('fen', chess.STARTING_FEN))`; any
exception is caught and logged, leaving the board as it was. -/
def reload_game_state (b : Board) (fetch : FetchOutcome) : Board :=
  match fetch with
  | .ok fenOpt => { fen0 := fenOpt.getD STARTING_FEN, stack := [] }
  | .error _ => b

/-- Outcome of one POST inside `make_move`: an HTTP response with a
status code, or a network-level exception (timeout, connection error). -/
inductive Attempt where
  | response (status : Nat)
  | netfail
deriving DecidableEq, Repr

/-- `MAX_RETRIES` of `src/main.py`. -/
def MAX_RETRIES : Nat := 3

/-- What `make_move` produced: the returned boolean, the board
afterwards, the number of POST attempts performed, and the number of
one-second backoff sleeps performed (one after each network failure). -/
structure MakeMoveResult where
  success : Bool
  board : Board
  attempts : Nat
  backoffs : Nat
deriving DecidableEq, Repr

/-- The `for attempt in range(MAX_RETRIES)` loop of `make_move`.
`att i` is the outcome of the `i`-th POST.  A 200 response pushes the
move onto the local board (an `IllegalMoveError` there triggers
`reload_game_state`) and returns `True`; any other status returns
`False` at once; a network failure sleeps one second and moves to the
next attempt; falling off the loop returns `False`. -/
def makeMoveLoop (legal : Board → Move → Bool) (fetch : FetchOutcome) (m : Move)
    (att : Nat → Attempt) : Nat → Board → Nat → Nat → MakeMoveResult
  | 0, b, used, slept => { success := false, board := b, attempts := used, backoffs := slept }
  | remaining + 1, b, used, slept =>
    match att used with
    | .response status =>
      if status = 200 then
        match pushUci legal b m with
        | some b2 => { success := true, board := b2, attempts := used + 1, backoffs := slept }
        | none =>
          { success := true, board := reload_game_state b fetch
            attempts := used + 1, backoffs := slept }
      else { success := false, board := b, attempts := used + 1, backoffs := slept }
    | .netfail => makeMoveLoop legal fetch m att remaining b (used + 1) (slept + 1)

/-- `make_move(game_id, move)` (the session is assumed present in
`self.games`, as it is on every call site). -/
def make_move (legal : Board → Move → Bool) (fetch : FetchOutcome) (m : Move)
    (att : Nat → Attempt) (b : Board) : MakeMoveResult :=
  makeMoveLoop legal fetch m att MAX_RETRIES b 0 0

/- ## Game-state handling -/

/-- Outcome of the `engine.play` call in `handle_game_state`: a result
whose `move` may be `None`, a wall-clock timeout (`asyncio.TimeoutError`),
or `chess.engine.EngineTerminatedError`. -/
inductive EngineOutcome where
  | move (m : Option Move)
  | timeout
  | terminated
deriving DecidableEq, Repr

/-- The exception `restart_engine` re-raises after a failed relaunch.
It escapes the inner try's `EngineTerminatedError` handler, but
`handle_game_state`'s enclosing method-level `except Exception` then
catches it, so it never leaves that method. -/
inductive Exn where
  | restartFailed
deriving DecidableEq, Repr

/-- The outcomes of the external calls one round of game handling can
make: the legality oracle, the engine call's outcome, the per-attempt
network outcomes of `make_move`, the snapshot fetch of
`reload_game_state`, and whether an engine relaunch would succeed. -/
structure Env where
  legal : Board → Move → Bool
  engine : EngineOutcome
  att : Nat → Attempt
  fetch : FetchOutcome
  restartOk : Bool

/-- `restart_engine`: quit the old process and relaunch; on failure the
exception is logged as critical and re-raised. -/
def restart_engine (restartOk : Bool) : Except Exn Unit :=
  if restartOk then .ok () else .error .restartFailed

/-- What a handler call left behind: the game entry afterwards, whether
`engine.play` was invoked this round, whether `make_move` was invoked,
whether the handler itself took the divergence/illegal-history
`reload_game_state` path, and the exception escaping the handler, if
any. -/
structure HandlerResult where
  gd : GameData
  computed : Bool
  submitted : Bool
  reloaded : Bool
  exn : Option Exn
deriving DecidableEq, Repr

/-- The computation-and-commit half of `handle_game_state`: the inner
`try` (from "Запуск расчета хода" on), acting on the synchronized board
`b1`.  Run the engine under the timeout; on a move that is non-`None`
and in `board.legal_moves`, call `make_move`; on timeout just log; on
`EngineTerminatedError` call `restart_engine`.  The `exn` field is the
exception leaving this inner `try` — a failed relaunch's re-raise
escapes the inner `EngineTerminatedError` handler — on its way to the
method-level `except Exception` of `handle_game_state`, which catches
it. -/
def computePhase (env : Env) (gd : GameData) (b1 : Board) : HandlerResult :=
  match env.engine with
  | .timeout =>
    { gd := { board := b1, is_white := gd.is_white }
      computed := true, submitted := false, reloaded := false, exn := none }
  | .terminated =>
    { gd := { board := b1, is_white := gd.is_white }
      computed := true, submitted := false, reloaded := false
      exn := match restart_engine env.restartOk with
             | .ok _ => none
             | .error e => some e }
  | .move none =>
    { gd := { board := b1, is_white := gd.is_white }
      computed := true, submitted := false, reloaded := false, exn := none }
  | .move (some m) =>
    if env.legal b1 m then
      let r := make_move env.legal env.fetch m env.att b1
      { gd := { board := r.board, is_white := gd.is_white }
        computed := true, submitted := true, reloaded := false, exn := none }
    else
      { gd := { board := b1, is_white := gd.is_white }
        computed := true, submitted := false, reloaded := false, exn := none }

/-- `handle_game_state`: read `current_moves` off the board's move
stack and the server list `M`; if `M` is shorter than the local list or
disagrees on its prefix, reload and return; otherwise push the suffix
`M[len(L):]` move by move, reloading and returning on the first
`IllegalMoveError`; only then run the computation phase (the source has
no turn check here).  The whole body sits in the method-level `try`
whose `except Exception` logs and returns normally, so whatever leaves
the inner computation phase — in particular the re-raise of a failed
engine relaunch — is caught here and no exception escapes the method
(`exn := none` on every path). -/
def handle_game_state (env : Env) (gd : GameData) (M : List Move) : HandlerResult :=
  let current_moves := gd.board.stack
  if M.length < current_moves.length ∨ M.take current_moves.length ≠ current_moves then
    { gd := { board := reload_game_state gd.board env.fetch, is_white := gd.is_white }
      computed := false, submitted := false, reloaded := true, exn := none }
  else
    match applyMoves env.legal gd.board (M.drop current_moves.length) with
    | .illegal b1 =>
      { gd := { board := reload_game_state b1 env.fetch, is_white := gd.is_white }
        computed := false, submitted := false, reloaded := true, exn := none }
    | .ok b1 => { computePhase env gd b1 with exn := none }

/-- `self.games[game_id]` is a non-empty Python dict, hence truthy: the
value of `game_data` as a boolean in `handle_initial_state`'s turn
condition. -/
def gameDataTruthy : Bool := true

/-- `handle_initial_state`: replay the initial move list (a `ValueError`
from `push_uci` is caught and ends the handler); then, when
`(board.turn == chess.WHITE and game_data) or (board.turn == chess.BLACK
and not game_data)` holds — with `game_data` the truthy games dict —
call `handle_game_state` on the same move list.  The method-level
`except Exception` (which would call `restart_engine`) is unreachable
here: nothing in the modelled body raises — in particular
`handle_game_state` swallows its own exceptions. -/
def handle_initial_state (env : Env) (gd : GameData) (initMoves : List Move) : HandlerResult :=
  match applyMoves env.legal gd.board initMoves with
  | .illegal b1 =>
    { gd := { board := b1, is_white := gd.is_white }
      computed := false, submitted := false, reloaded := false, exn := none }
  | .ok b1 =>
    if (b1.turn = true ∧ gameDataTruthy = true) ∨ (b1.turn = false ∧ ¬gameDataTruthy = true) then
      handle_game_state env { board := b1, is_white := gd.is_white } initMoves
    else
      { gd := { board := b1, is_white := gd.is_white }
        computed := false, submitted := false, reloaded := false, exn := none }

/-- The events `process_game` dispatches on. -/
inductive GameEvent where
  | gameFull (moves : List Move)
  | gameState (moves : List Move)
  | chatLine
  | otherEvent

/-- The body of `process_game`'s per-event loop: dispatch on the event
type inside a `try` whose `except Exception` catches and logs
everything, so no exception ever escapes one iteration. -/
def process_game_event (env : Env) (gd : GameData) : GameEvent → HandlerResult
  | .gameFull ms =>
    let r := handle_initial_state env gd ms
    { r with exn := none }
  | .gameState ms =>
    let r := handle_game_state env gd ms
    { r with exn := none }
  | .chatLine =>
    { gd := gd, computed := false, submitted := false, reloaded := false, exn := none }
  | .otherEvent =>
    { gd := gd, computed := false, submitted := false, reloaded := false, exn := none }

/- ## The poller -/

/-- One cycle's observable result: how many challenges were fully
handled (filter ran and the accept/decline action completed), whether
the cycle reached the playing-list reconciliation, whether an exception
was caught by the cycle-level `except` (which logs and sleeps five
seconds), and the playing list used for reconciliation. -/
structure CycleResult where
  handled : Nat
  reconciled : Bool
  caught : Bool
  playing : List String
deriving DecidableEq, Repr

/-- The challenge loop of `poll_events`.  `acceptFails i` says whether
the raw `session.post` of `accept_challenge` raises on the challenge at
position `i`; `decline_challenge` goes through `safe_request` and never
raises.  Returns how many challenges were fully handled and whether an
exception escaped the loop. -/
def processChallenges (crit : Criteria) (acceptFails : Nat → Bool) :
    List Challenge → Nat → Nat × Bool
  | [], _ => (0, false)
  | c :: rest, i =>
    if (is_challenge_acceptable crit c).1 then
      if acceptFails i then (0, true)
      else
        let r := processChallenges crit acceptFails rest (i + 1)
        (r.1 + 1, r.2)
    else
      let r := processChallenges crit acceptFails rest (i + 1)
      (r.1 + 1, r.2)

/-- One cycle of `poll_events`: fetch the challenge list through
`safe_request` (a failure yields the `{'in': []}` default), run the
filter and accept/decline each, then fetch the playing list (same
default) and reconcile; any exception inside the cycle is caught by the
cycle-level `except Exception`, aborting the remainder of that cycle
only. -/
def poll_events_cycle (crit : Criteria) (challengesFetch : Option (List Challenge))
    (acceptFails : Nat → Bool) (gamesFetch : Option (List String)) : CycleResult :=
  let cs := challengesFetch.getD []
  match processChallenges crit acceptFails cs 0 with
  | (k, true) => { handled := k, reconciled := false, caught := true, playing := [] }
  | (k, false) =>
    { handled := k, reconciled := true, caught := false, playing := gamesFetch.getD [] }

/- ## Concrete instances used to evaluate the model -/

/-- A fresh session board, `chess.Board()`. -/
def stdBoard : Board := { fen0 := STARTING_FEN, stack := [] }

/-- The board after White's `e2e4` has been pushed. -/
def boardE4 : Board := { fen0 := STARTING_FEN, stack := ["e2e4"] }

/-- A benign environment: every move legal, the engine returns a result
with no move, every POST answers 200, the snapshot fetch succeeds with
no `fen` field, relaunching works. -/
def envBenign : Env where
  legal := fun _ _ => true
  engine := .move none
  att := fun _ => Attempt.response 200
  fetch := Except.ok none
  restartOk := true

/-- An environment in which the engine has died and relaunching it
fails. -/
def envDead : Env where
  legal := fun _ _ => true
  engine := .terminated
  att := fun _ => Attempt.response 200
  fetch := Except.ok none
  restartOk := false

/-- An environment whose engine answers with the move `e2e4`. -/
def envMove : Env where
  legal := fun _ _ => true
  engine := .move (some "e2e4")
  att := fun _ => Attempt.response 200
  fetch := Except.ok none
  restartOk := true

/-- A session playing White whose local board already has `e2e4`. -/
def gdE4 : GameData := { board := boardE4, is_white := true }

/-- A session playing White on a fresh board. -/
def gdFresh : GameData := { board := stdBoard, is_white := true }

/-- A clock time control with the given limit and increment. -/
def tcClock (l i : Nat) : TimeControl :=
  { type := some "clock", limit := some l, increment := some i, daysPerTurn := none }

/-- A plain acceptable challenge: untitled 1600 challenger, standard
variant, 300+5 clock, not a rematch, not rated. -/
def chPlain : Challenge where
  challenger := { title := none, rating := some 1600, rated := none }
  rematch := false
  timeControl := tcClock 300 5
  variant := some "standard"
  rated := false

/-- The same challenge but requesting a rated game (the challenge's own
`rated` flag set; the challenger dictionary still has no `rated` key,
as on the wire). -/
def chRated : Challenge := { chPlain with rated := true }

/-- `chPlain` with the challenger sub-record itself carrying
`rated = true`. -/
def chPlainChRated : Challenge :=
  { chPlain with challenger := { title := none, rating := some 1600, rated := some true } }

/-- Attempt outcomes: the server rejects the move with HTTP 400. -/
def attRej : Nat → Attempt := fun _ => Attempt.response 400

/-- Attempt outcomes: every POST fails at the network level. -/
def attNet : Nat → Attempt := fun _ => Attempt.netfail

/-- Attempt outcomes: two network failures, then a 200. -/
def attMix : Nat → Attempt := fun i => if i < 2 then Attempt.netfail else Attempt.response 200

/- ## Lemmas -/

/-- A fully successful replay pushes exactly the given moves, in order,
onto the existing stack. -/
theorem applyMoves_ok_stack (legal : Board → Move → Bool) :
    ∀ (ms : List Move) (b b2 : Board),
      applyMoves legal b ms = .ok b2 → b2.stack = b.stack ++ ms
  | [], b, b2, h => by
    simp only [applyMoves, ApplyResult.ok.injEq] at h
    simp [← h]
  | m :: rest, b, b2, h => by
    by_cases hl : legal b m
    · simp only [applyMoves, pushUci, hl, if_true] at h
      have h2 := applyMoves_ok_stack legal rest (b.push m) b2 h
      simp only [Board.push] at h2
      simp [h2]
    · simp [applyMoves, pushUci, hl] at h

/-- The computation phase always invokes the engine. -/
theorem computePhase_computed (env : Env) (gd : GameData) (b1 : Board) :
    (computePhase env gd b1).computed = true := by
  rcases henv : env.engine with m | _ | _
  · rcases m with _ | mv
    · simp [computePhase, henv]
    · by_cases hl : env.legal b1 mv <;> simp [computePhase, henv, hl]
  · simp [computePhase, henv]
  · simp [computePhase, henv]

/-- When the submitted move is legal on the board, the submission loop
leaves the board where it was unless it returned success, in which case
exactly that move was pushed. -/
theorem makeMoveLoop_board (legal : Board → Move → Bool) (fetch : FetchOutcome) (m : Move)
    (att : Nat → Attempt) (b : Board) (hl : legal b m = true) :
    ∀ n u s,
      (makeMoveLoop legal fetch m att n b u s).board =
        (if (makeMoveLoop legal fetch m att n b u s).success then b.push m else b)
  | 0, u, s => by simp [makeMoveLoop]
  | n + 1, u, s => by
    rcases h : att u with st | _
    · by_cases hst : st = 200
      · subst hst
        simp [makeMoveLoop, h, pushUci, hl]
      · simp [makeMoveLoop, h, hst]
    · simpa [makeMoveLoop, h] using
        makeMoveLoop_board legal fetch m att b hl n (u + 1) (s + 1)

/-- A push strictly lengthens the stack, so it never returns the board
unchanged. -/
theorem Board.push_ne (b : Board) (m : Move) : b.push m ≠ b := by
  intro h
  have h2 := congrArg (fun x => x.stack.length) h
  simp [Board.push] at h2

/-- The computation phase never takes the handler's reload path. -/
theorem computePhase_reloaded (env : Env) (gd : GameData) (b1 : Board) :
    (computePhase env gd b1).reloaded = false := by
  rcases henv : env.engine with m | _ | _
  · rcases m with _ | mv
    · simp [computePhase, henv]
    · by_cases hl : env.legal b1 mv <;> simp [computePhase, henv, hl]
  · simp [computePhase, henv]
  · simp [computePhase, henv]

/-- The only exception the computation phase lets escape is a failed
engine restart after `EngineTerminatedError`. -/
theorem computePhase_exn (env : Env) (gd : GameData) (b1 : Board) :
    (computePhase env gd b1).exn =
      (if env.engine = .terminated ∧ env.restartOk = false
       then some Exn.restartFailed else none) := by
  rcases henv : env.engine with m | _ | _
  · rcases m with _ | mv
    · simp [computePhase, henv]
    · by_cases hl : env.legal b1 mv <;> simp [computePhase, henv, hl]
  · simp [computePhase, henv]
  · rcases hr : env.restartOk with _ | _ <;>
      simp [computePhase, restart_engine, henv, hr]

/-- A challenge that is not a rematch and passes the bot, variant,
rated-flag, time-control-type and rating rules is decided exactly by
the final time-control table check. -/
theorem filter_reaches_tc (crit : Criteria) (c : Challenge)
    (h1 : c.rematch = false)
    (h2 : ¬(crit.deny_bots = true ∧ c.challenger.title = some "BOT"))
    (h3 : ∃ v, c.variant = some v ∧ v ∈ crit.variants)
    (h4 : c.challenger.rated.getD false = crit.rated)
    (h5 : c.timeControl.type = some "clock" ∨ c.timeControl.type = some "correspondence" ∨
          c.timeControl.type = some "unlimited")
    (h6 : ∀ r, c.challenger.rating = some r → r ≠ 0 →
          crit.min_rating ≤ r ∧ r ≤ crit.max_rating) :
    is_challenge_acceptable crit c =
      (if (!crit.time_controls.any fun p =>
            (parse_time_control c.timeControl).1 = p.1 ∧
            (parse_time_control c.timeControl).2 ≥ p.2)
       then (false, Reason.badTimeControl) else (true, Reason.accepted)) := by
  obtain ⟨v, hvar, hvmem⟩ := h3
  have hbot : (crit.deny_bots && decide (c.challenger.title = some "BOT")) = false := by
    by_cases hdb : crit.deny_bots = true
    · simp [hdb, decide_eq_false (fun ht => h2 ⟨hdb, ht⟩)]
    · rw [Bool.not_eq_true] at hdb
      simp [hdb]
  have hvarb : crit.variants.contains v = true := List.elem_iff.mpr hvmem
  have htype : decide (c.timeControl.type = some "clock" ∨
      c.timeControl.type = some "correspondence" ∨
      c.timeControl.type = some "unlimited") = true := decide_eq_true h5
  have hrtg : (match c.challenger.rating with
      | some r => decide (r ≠ 0) && !(decide (crit.min_rating ≤ r) && decide (r ≤ crit.max_rating))
      | none => false) = false := by
    rcases hr : c.challenger.rating with _ | r
    · rfl
    · by_cases h0 : r = 0
      · subst h0
        simp
      · have h6r := h6 r hr h0
        simp [h0, h6r.1, h6r.2]
  simp only [is_challenge_acceptable, h1, Bool.false_eq_true, if_false, hbot, hvar, hvarb,
    Bool.not_true, Bool.not_false, if_true, h4, ne_eq, not_true_eq_false, htype, hrtg,
    Bool.decide_and]

/- ## Claims -/

/-- C10: when the authoritative snapshot fetched during a resync has no
`fen` field, `reload_game_state` replaces the board — whatever it was —
by a fresh board at the standard starting position (`STARTING_FEN`),
with an empty move stack; it neither fails nor keeps the old board. -/
theorem spec_C10_reload_default_fen (b : Board) :
    reload_game_state b (Except.ok none) = { fen0 := STARTING_FEN, stack := [] } := by
  simp [reload_game_state]

/-- C4: in `make_move`, a non-success HTTP response returns failure at
once (one attempt, no backoff, no further attempts); a network-level
failure consumes one of the `MAX_RETRIES = 3` attempts and is followed
by a one-second backoff before the next; exhausting all attempts on
network failures returns failure after three attempts and three
backoffs; and after `k` network failures a response is reached with `k`
backoffs spent, the answer being success exactly for status 200. -/
theorem spec_C4_submit_retries (legal : Board → Move → Bool) (fetch : FetchOutcome)
    (m : Move) (att : Nat → Attempt) (b : Board) :
    (∀ s, att 0 = .response s → s ≠ 200 →
       make_move legal fetch m att b =
         { success := false, board := b, attempts := 1, backoffs := 0 })
    ∧ ((∀ i, i < MAX_RETRIES → att i = .netfail) →
       make_move legal fetch m att b =
         { success := false, board := b, attempts := MAX_RETRIES, backoffs := MAX_RETRIES })
    ∧ (∀ k s, k < MAX_RETRIES → (∀ i, i < k → att i = .netfail) → att k = .response s →
       (make_move legal fetch m att b).backoffs = k ∧
       (make_move legal fetch m att b).attempts = k + 1 ∧
       ((make_move legal fetch m att b).success = true ↔ s = 200)) := by
  refine ⟨?_, ?_, ?_⟩
  · intro s h0 hs
    simp [make_move, MAX_RETRIES, makeMoveLoop, h0, hs]
  · intro hn
    simp [make_move, MAX_RETRIES, makeMoveLoop,
      hn 0 (by decide), hn 1 (by decide), hn 2 (by decide)]
  · intro k s hk hpre hresp
    simp only [MAX_RETRIES] at hk
    interval_cases k
    · by_cases hs : s = 200
      · subst hs
        rcases hp : pushUci legal b m with _ | b2 <;>
          simp [make_move, MAX_RETRIES, makeMoveLoop, hresp, hp]
      · simp [make_move, MAX_RETRIES, makeMoveLoop, hresp, hs]
    · by_cases hs : s = 200
      · subst hs
        rcases hp : pushUci legal b m with _ | b2 <;>
          simp [make_move, MAX_RETRIES, makeMoveLoop, hpre 0 (by omega), hresp, hp]
      · simp [make_move, MAX_RETRIES, makeMoveLoop, hpre 0 (by omega), hresp, hs]
    · by_cases hs : s = 200
      · subst hs
        rcases hp : pushUci legal b m with _ | b2 <;>
          simp [make_move, MAX_RETRIES, makeMoveLoop, hpre 0 (by omega),
            hpre 1 (by omega), hresp, hp]
      · simp [make_move, MAX_RETRIES, makeMoveLoop, hpre 0 (by omega),
          hpre 1 (by omega), hresp, hs]

/-- C4 witness: an immediate 400 answer gives one attempt and no
backoff; three network failures exhaust the retries with three
backoffs; two network failures before a 200 give exactly two backoffs
and success. -/
theorem spec_C4_submit_retries_witness :
    make_move (fun _ _ => true) (Except.ok none) "e2e4" attRej stdBoard =
      { success := false, board := stdBoard, attempts := 1, backoffs := 0 }
    ∧ make_move (fun _ _ => true) (Except.ok none) "e2e4" attNet stdBoard =
      { success := false, board := stdBoard, attempts := MAX_RETRIES, backoffs := MAX_RETRIES }
    ∧ (make_move (fun _ _ => true) (Except.ok none) "e2e4" attMix stdBoard).backoffs = 2
    ∧ (make_move (fun _ _ => true) (Except.ok none) "e2e4" attMix stdBoard).success = true :=
  ⟨(spec_C4_submit_retries (fun _ _ => true) (Except.ok none) "e2e4" attRej stdBoard).1
      400 rfl (by decide),
   (spec_C4_submit_retries (fun _ _ => true) (Except.ok none) "e2e4" attNet stdBoard).2.1
      (fun i _ => rfl),
   ((spec_C4_submit_retries (fun _ _ => true) (Except.ok none) "e2e4" attMix stdBoard).2.2
      2 200 (by decide) (fun i hi => by interval_cases i <;> rfl) rfl).1,
   ((spec_C4_submit_retries (fun _ _ => true) (Except.ok none) "e2e4" attMix stdBoard).2.2
      2 200 (by decide) (fun i hi => by interval_cases i <;> rfl) rfl).2.2.mpr rfl⟩

/-- C5: in the move-commit path, the local board is touched only on
submission success.  A computation timeout, an engine death, a `None`
or illegal engine move all leave the board exactly as it was; when the
engine move is confirmed legal the board afterwards is the old board
with that move pushed if `make_move` returned success and the old board
unchanged otherwise; in sum, the board changes iff a legal engine move
was submitted successfully. -/
theorem spec_C5_commit_only_on_success (env : Env) (gd : GameData) (b1 : Board) :
    (env.engine = .timeout → (computePhase env gd b1).gd.board = b1)
    ∧ (env.engine = .terminated → (computePhase env gd b1).gd.board = b1)
    ∧ (env.engine = .move none → (computePhase env gd b1).gd.board = b1)
    ∧ (∀ m, env.engine = .move (some m) → env.legal b1 m = false →
        (computePhase env gd b1).gd.board = b1)
    ∧ (∀ m, env.engine = .move (some m) → env.legal b1 m = true →
        (computePhase env gd b1).gd.board =
          (if (make_move env.legal env.fetch m env.att b1).success = true
           then b1.push m else b1))
    ∧ ((computePhase env gd b1).gd.board ≠ b1 ↔
        ∃ m, env.engine = .move (some m) ∧ env.legal b1 m = true ∧
          (make_move env.legal env.fetch m env.att b1).success = true) := by
  have hcommit : ∀ m, env.engine = .move (some m) → env.legal b1 m = true →
      (computePhase env gd b1).gd.board =
        (if (make_move env.legal env.fetch m env.att b1).success = true
         then b1.push m else b1) := by
    intro m h hl
    have hb := makeMoveLoop_board env.legal env.fetch m env.att b1 hl MAX_RETRIES 0 0
    simp only [computePhase, h, hl, if_true]
    simpa [make_move] using hb
  refine ⟨?_, ?_, ?_, ?_, hcommit, ?_⟩
  · intro h; simp [computePhase, h]
  · intro h; simp [computePhase, h]
  · intro h; simp [computePhase, h]
  · intro m h hl; simp [computePhase, h, hl]
  · constructor
    · intro hne
      rcases henv : env.engine with mo | _ | _
      · rcases mo with _ | mv
        · simp [computePhase, henv] at hne
        · by_cases hl : env.legal b1 mv = true
          · refine ⟨mv, rfl, hl, ?_⟩
            by_contra hs
            have hb := hcommit mv henv hl
            rw [if_neg hs] at hb
            exact hne hb
          · rw [Bool.not_eq_true] at hl
            simp [computePhase, henv, hl] at hne
      · simp [computePhase, henv] at hne
      · simp [computePhase, henv] at hne
    · rintro ⟨m, henv, hl, hs⟩
      have hb := hcommit m henv hl
      rw [if_pos hs] at hb
      rw [hb]
      exact Board.push_ne b1 m

/-- C5 witness: with every POST answering 200 the engine's `e2e4` gets
pushed onto the fresh board; a dead engine leaves the board alone. -/
theorem spec_C5_commit_only_on_success_witness :
    (computePhase envMove gdFresh stdBoard).gd.board =
      (if (make_move envMove.legal envMove.fetch "e2e4" envMove.att stdBoard).success = true
       then stdBoard.push "e2e4" else stdBoard)
    ∧ (computePhase envDead gdFresh stdBoard).gd.board = stdBoard :=
  ⟨(spec_C5_commit_only_on_success envMove gdFresh stdBoard).2.2.2.2.1 "e2e4" rfl rfl,
   (spec_C5_commit_only_on_success envDead gdFresh stdBoard).2.1 rfl⟩

/-- C1: the synchronization algorithm of `handle_game_state`.  When the
server list `M` is shorter than the local list or disagrees with it on
the local prefix, the board is replaced by the authoritative reload and
no computation happens this round.  Otherwise exactly the suffix
`M[len L:]` is pushed in order (afterwards the local stack is exactly
`M`) and the round proceeds to move computation; if a suffix move is
rejected as illegal, the rest of the suffix is abandoned, the same
reload path is taken, and computation is skipped. -/
theorem spec_C1_sync_algorithm (env : Env) (gd : GameData) (M : List Move) :
    (M.length < gd.board.stack.length ∨ M.take gd.board.stack.length ≠ gd.board.stack →
       handle_game_state env gd M =
         { gd := { board := reload_game_state gd.board env.fetch, is_white := gd.is_white }
           computed := false, submitted := false, reloaded := true, exn := none })
    ∧ (∀ b1,
       ¬(M.length < gd.board.stack.length ∨ M.take gd.board.stack.length ≠ gd.board.stack) →
       applyMoves env.legal gd.board (M.drop gd.board.stack.length) = .ok b1 →
         b1.stack = M ∧
         handle_game_state env gd M = { computePhase env gd b1 with exn := none } ∧
         (handle_game_state env gd M).computed = true ∧
         (handle_game_state env gd M).reloaded = false)
    ∧ (∀ b1,
       ¬(M.length < gd.board.stack.length ∨ M.take gd.board.stack.length ≠ gd.board.stack) →
       applyMoves env.legal gd.board (M.drop gd.board.stack.length) = .illegal b1 →
       handle_game_state env gd M =
         { gd := { board := reload_game_state b1 env.fetch, is_white := gd.is_white }
           computed := false, submitted := false, reloaded := true, exn := none }) := by
  refine ⟨?_, ?_, ?_⟩
  · intro h
    simp [handle_game_state, h]
  · intro b1 h happ
    have heq : handle_game_state env gd M = { computePhase env gd b1 with exn := none } := by
      simp [handle_game_state, h, happ]
    have hstack : b1.stack = M := by
      have hs := applyMoves_ok_stack env.legal _ _ _ happ
      push_neg at h
      rw [hs]
      nth_rewrite 1 [← h.2]
      exact List.take_append_drop _ M
    refine ⟨hstack, heq, ?_, ?_⟩
    · rw [heq]
      exact computePhase_computed env gd b1
    · rw [heq]
      exact computePhase_reloaded env gd b1
  · intro b1 h happ
    simp [handle_game_state, h, happ]

/-- C1 witness: local `["e2e4"]` against server `["d2d4"]` reloads and
skips computation; a fresh board against server `["e2e4", "e7e5"]`
pushes both moves and proceeds to computation without reloading. -/
theorem spec_C1_sync_algorithm_witness :
    handle_game_state envBenign gdE4 ["d2d4"] =
      { gd := { board := reload_game_state gdE4.board envBenign.fetch, is_white := gdE4.is_white }
        computed := false, submitted := false, reloaded := true, exn := none }
    ∧ ((Board.mk STARTING_FEN ["e2e4", "e7e5"]).stack = ["e2e4", "e7e5"]
       ∧ handle_game_state envBenign gdFresh ["e2e4", "e7e5"] =
           { computePhase envBenign gdFresh (Board.mk STARTING_FEN ["e2e4", "e7e5"]) with
             exn := none }
       ∧ (handle_game_state envBenign gdFresh ["e2e4", "e7e5"]).computed = true
       ∧ (handle_game_state envBenign gdFresh ["e2e4", "e7e5"]).reloaded = false) :=
  ⟨(spec_C1_sync_algorithm envBenign gdE4 ["d2d4"]).1 (by decide),
   (spec_C1_sync_algorithm envBenign gdFresh ["e2e4", "e7e5"]).2.1
      (Board.mk STARTING_FEN ["e2e4", "e7e5"]) (by decide) (by decide)⟩

/-- C2 (code evaluation at the failing inputs): after a `gameFull`
replay the source triggers computation whenever White is to move — the
condition `(board.turn == chess.WHITE and game_data) or (board.turn ==
chess.BLACK and not game_data)` tests the truthiness of the games
dictionary, not the session's color — so a session assigned Black with
White to move still computes; and after a successful `gameState`
synchronization the source computes unconditionally, so a session
assigned White computes even with Black to move. -/
theorem spec_C2_turn_check_bug :
    ((handle_initial_state envBenign { board := stdBoard, is_white := false } []).computed = true
      ∧ stdBoard.turn = true
      ∧ ({ board := stdBoard, is_white := false } : GameData).is_white = false)
    ∧ ((handle_game_state envBenign gdE4 ["e2e4"]).computed = true
      ∧ boardE4.turn = false
      ∧ gdE4.is_white = true) := by
  decide

/-- C3 counterexample: with a dead engine and a failing relaunch the
re-raise does escape the inner `EngineTerminatedError` handler (the
computation phase reports it), but `handle_game_state`'s own
method-level `except Exception` swallows it, and the session's
per-event loop sees nothing either — so at this concrete input nothing
is propagated out of the session, contradicting the claim that a
restart failure is propagated rather than swallowed. -/
theorem spec_C3_restart_swallowed_counterexample :
    (computePhase envDead gdFresh stdBoard).exn = some Exn.restartFailed
    ∧ (handle_game_state envDead gdFresh []).exn = none
    ∧ (process_game_event envDead gdFresh (GameEvent.gameState [])).exn = none :=
  ⟨rfl, rfl, rfl⟩

/-- C3 (amended): `restart_engine` re-raises a failed relaunch and that
re-raise is the only exception escaping the inner computation try, but
`handle_game_state`'s enclosing method-level `except Exception` catches
it: no exception ever leaves `handle_game_state`, and the session's
per-event handler likewise reports none — the failure is swallowed
inside the handler, contained to the game's session like every other
per-game error, and is not fatal to the agent. -/
theorem spec_C3_restart_contained (env : Env) (gd : GameData) (M : List Move) :
    (env.restartOk = false → restart_engine env.restartOk = Except.error Exn.restartFailed)
    ∧ (∀ (b1 : Board) (e : Exn), (computePhase env gd b1).exn = some e →
        e = Exn.restartFailed ∧ env.engine = EngineOutcome.terminated ∧ env.restartOk = false)
    ∧ (handle_game_state env gd M).exn = none
    ∧ (∀ ev, (process_game_event env gd ev).exn = none) := by
  refine ⟨?_, ?_, ?_, ?_⟩
  · intro h
    simp [restart_engine, h]
  · intro b1 e he
    cases e
    refine ⟨rfl, ?_⟩
    rw [computePhase_exn] at he
    by_cases hc : env.engine = EngineOutcome.terminated ∧ env.restartOk = false
    · exact hc
    · simp [hc] at he
  · by_cases hdiv : M.length < gd.board.stack.length ∨
        M.take gd.board.stack.length ≠ gd.board.stack
    · simp [handle_game_state, hdiv]
    · rcases happ : applyMoves env.legal gd.board (M.drop gd.board.stack.length) with b1 | b1
      · simp [handle_game_state, hdiv, happ]
      · simp [handle_game_state, hdiv, happ]
  · intro ev
    cases ev <;> simp [process_game_event]

/-- C6: for a challenge that reaches the time-control rule (not a
rematch, passes the bot, variant, rated-flag, type and rating rules),
the filter accepts iff some allowed `(mainTime, minIncrement)` entry has
exactly the normalized main time and a minimum increment not exceeding
the normalized increment; and the normalization maps unlimited to
`(0,0)`, correspondence to `(daysPerTurn·86400, 0)` and clock to
`(limit, increment)`. -/
theorem spec_C6_time_control_rule (crit : Criteria) (c : Challenge)
    (h1 : c.rematch = false)
    (h2 : ¬(crit.deny_bots = true ∧ c.challenger.title = some "BOT"))
    (h3 : ∃ v, c.variant = some v ∧ v ∈ crit.variants)
    (h4 : c.challenger.rated.getD false = crit.rated)
    (h5 : c.timeControl.type = some "clock" ∨ c.timeControl.type = some "correspondence" ∨
          c.timeControl.type = some "unlimited")
    (h6 : ∀ r, c.challenger.rating = some r → r ≠ 0 →
          crit.min_rating ≤ r ∧ r ≤ crit.max_rating) :
    ((is_challenge_acceptable crit c).1 = true ↔
      ∃ p ∈ crit.time_controls,
        (parse_time_control c.timeControl).1 = p.1 ∧
        p.2 ≤ (parse_time_control c.timeControl).2)
    ∧ (∀ tc : TimeControl, tc.type = some "unlimited" → parse_time_control tc = (0, 0))
    ∧ (∀ tc : TimeControl, tc.type = some "correspondence" →
        parse_time_control tc = ((tc.daysPerTurn.getD 1) * 86400, 0))
    ∧ (∀ tc : TimeControl, tc.type = some "clock" →
        parse_time_control tc = (tc.limit.getD 0, tc.increment.getD 0)) := by
  refine ⟨?_, ?_, ?_, ?_⟩
  · rw [filter_reaches_tc crit c h1 h2 h3 h4 h5 h6]
    by_cases hany : (crit.time_controls.any fun p =>
        (parse_time_control c.timeControl).1 = p.1 ∧
        (parse_time_control c.timeControl).2 ≥ p.2) = true
    · rw [hany]
      simp only [List.any_eq_true, decide_eq_true_eq] at hany
      obtain ⟨p, hp, hp1, hp2⟩ := hany
      exact iff_of_true rfl ⟨p, hp, hp1, hp2⟩
    · rw [Bool.not_eq_true] at hany
      rw [hany]
      refine iff_of_false (by decide) ?_
      rintro ⟨p, hp, hp1, hp2⟩
      rw [List.any_eq_false] at hany
      have h := hany p hp
      simp only [Bool.and_eq_true, decide_eq_true_eq, not_and] at h
      have hlt := h hp1
      omega
  · intro tc h
    unfold parse_time_control
    rw [h, if_pos rfl]
  · intro tc h
    unfold parse_time_control
    rw [h, if_neg (by decide), if_pos rfl]
  · intro tc h
    unfold parse_time_control
    rw [h, if_neg (by decide), if_neg (by decide)]

/-- C6 witness: the plain 300+5 challenge reaches the time-control rule
and is accepted because the allowed entry (300, 5) matches. -/
theorem spec_C6_time_control_rule_witness :
    (is_challenge_acceptable ACCEPTANCE_CRITERIA chPlain).1 = true ↔
      ∃ p ∈ ACCEPTANCE_CRITERIA.time_controls,
        (parse_time_control chPlain.timeControl).1 = p.1 ∧
        p.2 ≤ (parse_time_control chPlain.timeControl).2 :=
  (spec_C6_time_control_rule ACCEPTANCE_CRITERIA chPlain rfl (by decide)
    ⟨"standard", rfl, by decide⟩ (by decide) (Or.inl rfl)
    (fun r hr h0 => by
      simp only [chPlain, Option.some.injEq] at hr
      subst hr
      exact ⟨by decide, by decide⟩)).1

/-- C7: a rematch challenge short-circuits the filter: it is declined
when rematches are disabled, declined when the challenger is a bot and
bots are denied, and accepted otherwise; the variant, rating,
rated-flag and time-control fields are never consulted (the result
depends only on the criteria and the challenger sub-record). -/
theorem spec_C7_rematch_shortcut (crit : Criteria) (c : Challenge) (h : c.rematch = true) :
    (crit.allow_rematches = false →
       is_challenge_acceptable crit c = (false, Reason.rematchesDisabled))
    ∧ (crit.allow_rematches = true → crit.deny_bots = true →
       c.challenger.title = some "BOT" →
       is_challenge_acceptable crit c = (false, Reason.rematchFromBot))
    ∧ (crit.allow_rematches = true →
       ¬(crit.deny_bots = true ∧ c.challenger.title = some "BOT") →
       is_challenge_acceptable crit c = (true, Reason.rematchAccepted))
    ∧ (∀ c2 : Challenge, c2.rematch = true → c2.challenger = c.challenger →
       is_challenge_acceptable crit c2 = is_challenge_acceptable crit c) := by
  refine ⟨?_, ?_, ?_, ?_⟩
  · intro ha
    simp [is_challenge_acceptable, h, ha]
  · intro ha hd ht
    simp [is_challenge_acceptable, h, ha, hd, ht]
  · intro ha hbot
    have hb : (crit.deny_bots && decide (c.challenger.title = some "BOT")) = false := by
      by_cases hdb : crit.deny_bots = true
      · simp [hdb, decide_eq_false (fun ht => hbot ⟨hdb, ht⟩)]
      · rw [Bool.not_eq_true] at hdb
        simp [hdb]
    simp [is_challenge_acceptable, h, ha, hb]
  · intro c2 h2 hch
    simp [is_challenge_acceptable, h, h2, hch]

/-- C7 witness: a rematch from an untitled, wildly over-rated
challenger on an unsupported variant is still accepted. -/
theorem spec_C7_rematch_shortcut_witness :
    is_challenge_acceptable ACCEPTANCE_CRITERIA
      { challenger := { title := none, rating := some 99999, rated := some true }
        rematch := true
        timeControl := tcClock 1 0
        variant := some "atomic"
        rated := true } = (true, Reason.rematchAccepted) :=
  (spec_C7_rematch_shortcut ACCEPTANCE_CRITERIA
      { challenger := { title := none, rating := some 99999, rated := some true }
        rematch := true
        timeControl := tcClock 1 0
        variant := some "atomic"
        rated := true } rfl).2.2.1 rfl (by decide)

/-- C8 counterexample: `chRated` requests a rated game (the challenge
record's rated flag is `true`) while the criteria require unrated, yet
the filter accepts it — the code reads `challenger.get('rated', False)`
from the challenger sub-dictionary, which has no such key, so the
comparison sees `False` and passes. -/
theorem spec_C8_rated_flag_counterexample :
    (is_challenge_acceptable ACCEPTANCE_CRITERIA chRated).1 = true
    ∧ chRated.rated = true
    ∧ ACCEPTANCE_CRITERIA.rated = false
    ∧ chRated.rematch = false
    ∧ chRated.challenger.title ≠ some "BOT"
    ∧ chRated.variant = some "standard" := by
  decide

/-- C8 (amended): the rated-flag rule compares the `rated` field of the
challenger sub-record (defaulting to false when absent) — not the
challenge record's own requested rated-flag, which the filter never
reads — against the criteria's required flag; on mismatch it denies,
and the rule is decided before the time-control-type, rating-range and
time-control-matching rules (the result does not depend on those
fields). -/
theorem spec_C8_rated_flag_rule (crit : Criteria) (c : Challenge)
    (h1 : c.rematch = false)
    (h2 : ¬(crit.deny_bots = true ∧ c.challenger.title = some "BOT"))
    (h3 : ∃ v, c.variant = some v ∧ v ∈ crit.variants)
    (h4 : c.challenger.rated.getD false ≠ crit.rated) :
    is_challenge_acceptable crit c = (false, Reason.unsupportedMode)
    ∧ ∀ (c2 : Challenge) (b : Bool),
        is_challenge_acceptable crit { c2 with rated := b } =
          is_challenge_acceptable crit c2 := by
  constructor
  · obtain ⟨v, hvar, hvmem⟩ := h3
    have hbot : (crit.deny_bots && decide (c.challenger.title = some "BOT")) = false := by
      by_cases hdb : crit.deny_bots = true
      · simp [hdb, decide_eq_false (fun ht => h2 ⟨hdb, ht⟩)]
      · rw [Bool.not_eq_true] at hdb
        simp [hdb]
    have hvarb : crit.variants.contains v = true := List.elem_iff.mpr hvmem
    simp only [is_challenge_acceptable, h1, Bool.false_eq_true, if_false, hbot, hvar, hvarb,
      Bool.not_true, Bool.not_false, if_true, ne_eq]
    rw [if_pos h4]
  · intro c2 b
    cases c2
    rfl

/-- C8 witness: the concrete unrated criteria against a challenge whose
challenger record carries `rated = true` is denied with the mode
reason, whatever its time control; and flipping the challenge-level
flag never changes the verdict. -/
theorem spec_C8_rated_flag_rule_witness :
    is_challenge_acceptable ACCEPTANCE_CRITERIA chPlainChRated =
      (false, Reason.unsupportedMode)
    ∧ is_challenge_acceptable ACCEPTANCE_CRITERIA { chPlain with rated := true } =
        is_challenge_acceptable ACCEPTANCE_CRITERIA chPlain :=
  ⟨(spec_C8_rated_flag_rule ACCEPTANCE_CRITERIA chPlainChRated
      rfl (by decide) ⟨"standard", rfl, by decide⟩ (by decide)).1,
   (spec_C8_rated_flag_rule ACCEPTANCE_CRITERIA chPlainChRated rfl (by decide)
      ⟨"standard", rfl, by decide⟩ (by decide)).2 chPlain true⟩

/-- When no accept ever fails, the whole challenge list is handled and
no exception escapes the loop. -/
theorem processChallenges_no_acceptFail (crit : Criteria) (acceptFails : Nat → Bool)
    (hok : ∀ j, acceptFails j = false) :
    ∀ (cs : List Challenge) (i : Nat),
      processChallenges crit acceptFails cs i = (cs.length, false)
  | [], _ => rfl
  | c :: rest, i => by
    by_cases hc : (is_challenge_acceptable crit c).1 = true
    · simp [processChallenges, hc, hok i,
        processChallenges_no_acceptFail crit acceptFails hok rest (i + 1)]
    · rw [Bool.not_eq_true] at hc
      simp [processChallenges, hc,
        processChallenges_no_acceptFail crit acceptFails hok rest (i + 1)]

/-- When the filter denies every challenge, only declines run and the
whole list is handled whatever the accept outcomes would have been. -/
theorem processChallenges_all_denied (crit : Criteria) (acceptFails : Nat → Bool) :
    ∀ (cs : List Challenge) (i : Nat),
      (∀ c ∈ cs, (is_challenge_acceptable crit c).1 = false) →
      processChallenges crit acceptFails cs i = (cs.length, false)
  | [], _, _ => rfl
  | c :: rest, i, h => by
    have hc := h c (List.mem_cons_self c rest)
    simp [processChallenges, hc,
      processChallenges_all_denied crit acceptFails rest (i + 1)
        (fun c2 hc2 => h c2 (List.mem_cons_of_mem c hc2))]

/-- C9 counterexample: two acceptable challenges and an accept whose
raw POST raises on the first of them: the exception escapes the
challenge loop to the cycle-level handler, the second challenge is
never processed and the playing-list reconciliation is skipped —
against the claim that an accept failure does not abort the remainder
of the cycle. -/
theorem spec_C9_accept_abort_counterexample :
    (is_challenge_acceptable ACCEPTANCE_CRITERIA chPlain).1 = true
    ∧ poll_events_cycle ACCEPTANCE_CRITERIA (some [chPlain, chPlain]) (fun _ => true)
        (some ["gid1"]) =
      { handled := 0, reconciled := false, caught := true, playing := [] } := by
  decide

/-- C9 (amended): a failed fetch of the pending-challenge list yields
an empty list and the cycle still reaches reconciliation; declines
(which go through the error-swallowing request wrapper) never abort the
cycle, and neither does anything when no accept fails; but a failed
accept raises out of the challenge loop: the cycle-level handler
catches it — the poller survives into the next cycle — and the
remaining challenges and the reconciliation of that cycle are
skipped. -/
theorem spec_C9_cycle_containment (crit : Criteria) (acceptFails : Nat → Bool)
    (gamesFetch : Option (List String)) :
    poll_events_cycle crit none acceptFails gamesFetch =
      { handled := 0, reconciled := true, caught := false, playing := gamesFetch.getD [] }
    ∧ (∀ cs, (∀ c ∈ cs, (is_challenge_acceptable crit c).1 = false) →
       poll_events_cycle crit (some cs) acceptFails gamesFetch =
         { handled := cs.length, reconciled := true, caught := false
           playing := gamesFetch.getD [] })
    ∧ ((∀ j, acceptFails j = false) → ∀ cs,
       poll_events_cycle crit (some cs) acceptFails gamesFetch =
         { handled := cs.length, reconciled := true, caught := false
           playing := gamesFetch.getD [] })
    ∧ (∀ c cs, (is_challenge_acceptable crit c).1 = true → acceptFails 0 = true →
       poll_events_cycle crit (some (c :: cs)) acceptFails gamesFetch =
         { handled := 0, reconciled := false, caught := true, playing := [] }) := by
  refine ⟨?_, ?_, ?_, ?_⟩
  · simp [poll_events_cycle, processChallenges]
  · intro cs hd
    simp [poll_events_cycle, processChallenges_all_denied crit acceptFails cs 0 hd]
  · intro hok cs
    simp [poll_events_cycle, processChallenges_no_acceptFail crit acceptFails hok cs 0]
  · intro c cs hc hf
    simp [poll_events_cycle, processChallenges, hc, hf]

/-- C9 witness: a failed fetch still reconciles; a denied challenge is
fully handled even though every accept would fail; and an accept
failure on the first of two acceptable challenges aborts the cycle. -/
theorem spec_C9_cycle_containment_witness :
    poll_events_cycle ACCEPTANCE_CRITERIA none (fun _ => true) (some ["gid1"]) =
      { handled := 0, reconciled := true, caught := false, playing := ["gid1"] }
    ∧ poll_events_cycle ACCEPTANCE_CRITERIA (some [chRated, chPlain]) (fun _ => false)
        (some []) =
      { handled := 2, reconciled := true, caught := false, playing := [] }
    ∧ poll_events_cycle ACCEPTANCE_CRITERIA (some [chPlain, chPlain]) (fun _ => true)
        (some []) =
      { handled := 0, reconciled := false, caught := true, playing := [] } :=
  ⟨(spec_C9_cycle_containment ACCEPTANCE_CRITERIA (fun _ => true) (some ["gid1"])).1,
   (spec_C9_cycle_containment ACCEPTANCE_CRITERIA (fun _ => false) (some [])).2.2.1
      (fun _ => rfl) [chRated, chPlain],
   (spec_C9_cycle_containment ACCEPTANCE_CRITERIA (fun _ => true) (some [])).2.2.2
      chPlain [chPlain] (by decide) rfl⟩

/-- C3 witness: with a dead engine and failing relaunch the re-raise
leaves `restart_engine`, the exception leaving the inner computation
try indeed stems from the terminated engine and failed relaunch, and
neither `handle_game_state` nor the per-event handler lets anything
escape. -/
theorem spec_C3_restart_contained_witness :
    restart_engine envDead.restartOk = Except.error Exn.restartFailed
    ∧ (Exn.restartFailed = Exn.restartFailed
       ∧ envDead.engine = EngineOutcome.terminated ∧ envDead.restartOk = false)
    ∧ (handle_game_state envDead gdFresh []).exn = none
    ∧ (process_game_event envDead gdFresh (GameEvent.gameState [])).exn = none :=
  ⟨(spec_C3_restart_contained envDead gdFresh []).1 rfl,
   (spec_C3_restart_contained envDead gdFresh []).2.1 stdBoard Exn.restartFailed rfl,
   (spec_C3_restart_contained envDead gdFresh []).2.2.1,
   (spec_C3_restart_contained envDead gdFresh []).2.2.2 (GameEvent.gameState [])⟩

end LichessBot
